import Mathlib

/-
Verification of the storage abstraction layer of the beyondborderweb backend.

The development shallowly embeds the File Backend of the repository:
the filter matchers (src/app/core/file_storage.py, src/app/core/database.py),
the cursor and aggregation cursor (src/app/core/database.py), the
collection-level operations (count_documents, distinct, update_one,
delete_one, insert_one), the CRUD layer guarding on an uninitialized
backend (src/app/crud/country.py) and the identity normalization of the
Country model (src/app/models/country.py).

Documents are JSON-like objects.  A stored document is embedded as an
association list of field name and value, in insertion order, mirroring a
Python dict; nested values use the mutual types ValueArr and ValueMap.
-/

namespace BeyondBorder

mutual

/-- Embeds a Python/JSON value as stored by the File Backend: None, bool,
int, str, list, dict, plus a bson ObjectId (carrying its 24-hex-digit
string form).  Structural equality mirrors Python value equality on these
shapes; in particular an ObjectId is never equal to a str. -/
inductive Value where
  | vnull
  | vbool (b : Bool)
  | vint (n : Int)
  | vstr (s : String)
  | vlist (xs : ValueArr)
  | vdict (fs : ValueMap)
  | vobjid (hex : String)
  deriving DecidableEq

inductive ValueArr where
  | nil
  | cons (v : Value) (rest : ValueArr)
  deriving DecidableEq

inductive ValueMap where
  | nil
  | cons (k : String) (v : Value) (rest : ValueMap)
  deriving DecidableEq

end

/-- A stored document: a Python dict embedded as an ordered association
list of field name and value. -/
abbrev Doc := List (String × Value)

/-- A query filter: a mapping from field name to value, where the value of
the reserved key $text is a dict carrying the key $search. -/
abbrev Filter := List (String × Value)

/-- Dict lookup on a document: the value at the first occurrence of the
key, mirroring Python dict access (dict keys are unique in Python). -/
def lookupD (d : Doc) (k : String) : Option Value :=
  match d.find? (fun kv => kv.1 == k) with
  | some kv => some kv.2
  | none => none

/-- Membership test for a key, mirroring the Python expression k in d. -/
def containsKey (d : Doc) (k : String) : Bool :=
  d.any (fun kv => kv.1 == k)

/-- Lookup in a nested dict value. -/
def mapLookup (m : ValueMap) (k : String) : Option Value :=
  match m with
  | .nil => none
  | .cons k2 v rest => if k2 == k then some v else mapLookup rest k

/-- Conversion of a nested dict value to the association-list form. -/
def mapToList (m : ValueMap) : List (String × Value) :=
  match m with
  | .nil => []
  | .cons k v rest => (k, v) :: mapToList rest

/-- Embeds the Python substring test (needle in hay) on character lists:
true iff needle occurs contiguously in hay (an empty needle always
occurs). -/
def infixOf (needle : List Char) : List Char → Bool
  | [] => needle.isEmpty
  | c :: t => needle.isPrefixOf (c :: t) || infixOf needle t

/-- Python needle in hay, on strings. -/
def pyIn (needle hay : String) : Bool :=
  infixOf needle.data hay.data

/-- Python str.lower(), character by character (the claims only exercise
ASCII text, on which this coincides with the source). -/
def pyLower (s : String) : String :=
  String.mk (s.data.map Char.toLower)

/-- Python s.startswith(pre), on character lists. -/
def pyStartsWith (s pre : String) : Bool :=
  pre.data.isPrefixOf s.data

/-- Python s[n:], on character lists. -/
def pyDrop (s : String) (n : Nat) : String :=
  String.mk (s.data.drop n)

/-- Python str(v) for the value shapes the matchers meet.  The claims only
exercise scalar fields; the Python repr of a composite value is not
reproduced (no claim depends on it). -/
def pyStr (v : Value) : String :=
  match v with
  | .vstr s => s
  | .vbool true => "True"
  | .vbool false => "False"
  | .vint n => toString n
  | .vnull => "None"
  | .vlist _ => "<list>"
  | .vdict _ => "<dict>"
  | .vobjid h => h

/-- Embeds reading the search term of a $text filter value, the source
expression value.get($search, ) with an empty-string default.  A non-dict
$text value, or a non-string $search, raises at runtime in the source and
is not exercised by any claim; both are modelled as the empty term. -/
def searchTermOf (v : Value) : String :=
  match v with
  | .vdict m =>
    match mapLookup m "$search" with
    | some (.vstr s) => s
    | _ => ""
  | _ => ""

/-- Embeds the per-field text probe of FileStorage._matches_filter
(src/app/core/file_storage.py lines 152-155): the field is present and the
lowered term is a substring of str(field value).lower(). -/
def textFieldHit (item : Doc) (term : String) (field : String) : Bool :=
  match lookupD item field with
  | some v => pyIn term (pyLower (pyStr v))
  | none => false

/-- Embeds FileStorage._matches_filter (src/app/core/file_storage.py lines
145-162), the Filter Matcher of spec section 4.2: every filter key must
hold, where $text is a case-insensitive substring probe over the fields
name and summary and every other key is an equality test on a present
field. -/
def matchesFilter (item : Doc) (f : Filter) : Bool :=
  f.all fun kv =>
    if kv.1 == "$text" then
      let term := pyLower (searchTermOf kv.2)
      ["name", "summary"].any (fun field => textFieldHit item term field)
    else
      match lookupD item kv.1 with
      | some w => w == kv.2
      | none => false

/-- Embeds the plain equality matcher duplicated across database.py (the
find/count_documents/distinct/delete_many loops and the aggregation $match
stage, for example FileCollection.count_documents lines 273-281): the key
must be present with an equal value; the $text operator is not treated
specially here. -/
def plainMatches (item : Doc) (f : Filter) : Bool :=
  f.all fun kv =>
    match lookupD item kv.1 with
    | some w => w == kv.2
    | none => false

/-- Embeds the get-based matcher of the adapter paths (the expression
item.get(k) == v of FileStorageAdapter.find_one/update_one/delete_one and
FileCollection.find_one_and_update): a missing key reads as None, so a
filter value of None matches a missing field. -/
def getMatches (item : Doc) (f : Filter) : Bool :=
  f.all fun kv => ((lookupD item kv.1).getD .vnull) == kv.2

/-- Embeds the per-field text probe inlined in FileStorageCursor.to_list
(src/app/core/database.py lines 360-363); it calls .lower() on the raw
field value, so only string fields can hit (a non-string field raises at
runtime there, which no claim exercises). -/
def cursorTextHit (item : Doc) (term : String) (field : String) : Bool :=
  match lookupD item field with
  | some (.vstr s) => pyIn term (pyLower s)
  | _ => false

/-- Embeds the filter loop inlined in FileStorageCursor.to_list
(src/app/core/database.py lines 351-371): the $text key is a text probe on
name or summary, every other key an equality test on a present field. -/
def cursorMatches (item : Doc) (f : Filter) : Bool :=
  f.all fun kv =>
    if kv.1 == "$text" then
      let term := pyLower (searchTermOf kv.2)
      cursorTextHit item term "name" || cursorTextHit item term "summary"
    else
      match lookupD item kv.1 with
      | some w => w == kv.2
      | none => false

/-- Embeds the Python comparison key < key on the sort keys the backend
produces.  Python raises TypeError on the remaining mixed comparisons
(never exercised by a claim); those are modelled as not-less. -/
def pyLt (a b : Value) : Bool :=
  match a, b with
  | .vint x, .vint y => x < y
  | .vstr x, .vstr y => decide (x < y)
  | .vbool x, .vbool y => (if x then (1 : Int) else 0) < (if y then (1 : Int) else 0)
  | .vbool x, .vint y => (if x then (1 : Int) else 0) < y
  | .vint x, .vbool y => x < (if y then (1 : Int) else 0)
  | _, _ => false

/-- Stable insertion of one element into a sorted list: the element moves
past an earlier one only when strictly less, so equal keys keep their
original order, as Python list.sort guarantees. -/
def sortInsert (lt : α → α → Bool) (x : α) : List α → List α
  | [] => [x]
  | y :: ys => if lt x y then x :: y :: ys else y :: sortInsert lt x ys

/-- Stable sort by a strict comparison, modelling Python list.sort. -/
def sortByLt (lt : α → α → Bool) : List α → List α
  | [] => []
  | x :: xs => sortInsert lt x (sortByLt lt xs)

/-- Embeds the sort step of FileStorageCursor.to_list (src/app/core/
database.py lines 374-379): a stable sort on the key x.get(sort_field, )
whose default is the empty string, reversed when the direction is -1.  The
cursor keeps its sort as a one-entry dict set by sort(field, direction);
it is embedded as the pair of that field and direction. -/
def applySortC (srt : Option (String × Int)) (data : List Doc) : List Doc :=
  match srt with
  | none => data
  | some (field, dir) =>
    let key := fun d => (lookupD d field).getD (.vstr "")
    if dir == -1 then sortByLt (fun a b => pyLt (key b) (key a)) data
    else sortByLt (fun a b => pyLt (key a) (key b)) data

/-- Embeds the Python slice data[a:b] for the nonnegative bounds the
cursor uses (skip and limit are nonnegative ints per the spec data
model). -/
def pySlice (xs : List α) (a b : Nat) : List α :=
  (xs.take b).drop a

/-- Embeds FileStorageCursor.to_list (src/app/core/database.py lines
348-382): re-load the collection snapshot, filter (skipped when the filter
dict is falsy, that is None or empty), sort, then slice, where a falsy
limit (0 or None) keeps all remaining documents, and a truthy length
truncates the result. -/
def cursorToList (st : List Doc) (f : Filter) (srt : Option (String × Int))
    (skip : Nat) (limit : Option Nat) (length : Option Nat) : List Doc :=
  let data := if f.isEmpty then st else st.filter (fun d => cursorMatches d f)
  let data := applySortC srt data
  let result :=
    match limit with
    | none => data.drop skip
    | some 0 => data.drop skip
    | some l => pySlice data skip (skip + l)
  match length with
  | none => result
  | some 0 => result
  | some n => result.take n

/-- A pipeline stage of the aggregation engine, the tagged form of the
stage dicts dispatched on the keys $match, $group and $sort in
FileStorageAggregationCursor.to_list; a stage with none of those keys is
passed through unchanged (the source takes no branch). -/
inductive Stage where
  | smatch (conditions : Filter)
  | sgroup (spec : List (String × Value))
  | ssort (field : String) (dir : Int)
  | other

/-- The accumulator spec the group stage recognises, the dict with the
single entry $sum mapped to 1. -/
def sumOneSpec : Value :=
  .vdict (.cons "$sum" (.vint 1) .nil)

/-- Appends a document to the bucket of its group key, creating the bucket
at the end on first sight: the first-occurrence key order of a Python
dict. -/
def bucketAdd (groups : List (Value × List Doc)) (key : Value) (d : Doc) :
    List (Value × List Doc) :=
  match groups with
  | [] => [(key, [d])]
  | (k, ds) :: rest =>
    if k == key then (k, ds ++ [d]) :: rest
    else (k, ds) :: bucketAdd rest key d

/-- Embeds the grouping loop of the $group stage: buckets keyed by
item.get(field), where a missing field reads as None. -/
def buildGroups (field : String) (data : List Doc) : List (Value × List Doc) :=
  data.foldl (fun gs d => bucketAdd gs ((lookupD d field).getD .vnull) d) []

/-- Embeds the $group stage of FileStorageAggregationCursor.to_list
(src/app/core/database.py lines 410-437): a group id of None (absent or
null, as .get conflates them) collapses everything to the single row with
id None and count len(data); a string id starting with $ groups by that
field and emits one row per distinct key carrying a count exactly when the
spec holds the accumulator count: sum 1; any other id shape takes no
branch and the data passes through unchanged. -/
def groupRows (spec : List (String × Value)) (data : List Doc) : List Doc :=
  match lookupD spec "_id" with
  | none => [[("_id", Value.vnull), ("count", Value.vint data.length)]]
  | some .vnull => [[("_id", Value.vnull), ("count", Value.vint data.length)]]
  | some (.vstr s) =>
    if pyStartsWith s "$" then
      let field := pyDrop s 1
      (buildGroups field data).map fun g =>
        ("_id", g.1) ::
          spec.filterMap fun kv =>
            if kv.1 == "_id" then none
            else if kv.1 == "count" && kv.2 == sumOneSpec then
              some ("count", Value.vint g.2.length)
            else none
    else data
  | some _ => data

/-- Embeds one stage application of FileStorageAggregationCursor.to_list
(src/app/core/database.py lines 396-444): $match filters with the plain
equality matcher, $group groups, $sort sorts stably on x.get(field, 0)
with a default of 0, and an unrecognised stage passes the rows through. -/
def applyStage (data : List Doc) : Stage → List Doc
  | .smatch conds => data.filter (fun d => plainMatches d conds)
  | .sgroup spec => groupRows spec data
  | .ssort field dir =>
    let key := fun d => (lookupD d field).getD (.vint 0)
    if dir == -1 then sortByLt (fun a b => pyLt (key b) (key a)) data
    else sortByLt (fun a b => pyLt (key a) (key b)) data
  | .other => data

/-- Embeds FileStorageAggregationCursor.to_list (src/app/core/database.py
lines 392-446): fold the pipeline stages over the collection snapshot,
then truncate by a truthy length. -/
def aggToList (st : List Doc) (pipeline : List Stage) (length : Option Nat) :
    List Doc :=
  let data := pipeline.foldl applyStage st
  match length with
  | none => data
  | some 0 => data
  | some n => data.take n

/-- Embeds FileCollection.count_documents (src/app/core/database.py lines
267-283): a falsy filter counts everything, otherwise the plain matcher
counts the matches. -/
def countDocumentsFC (st : List Doc) (f : Filter) : Nat :=
  if f.isEmpty then st.length
  else (st.filter (fun d => plainMatches d f)).length

/-- Embeds FileCollection.distinct (src/app/core/database.py lines
285-305): filter with the plain matcher (skipped when falsy), then collect
into a set each present, non-None value of the field.  The Python set is
embedded as a duplicate-free list in first-occurrence order; only its
membership is specified, since Python set iteration order is not. -/
def distinctStep (field : String) (acc : List Value) (d : Doc) : List Value :=
  match lookupD d field with
  | some v => if v ≠ .vnull then (if acc.contains v then acc else acc ++ [v]) else acc
  | none => acc

def distinctVals (st : List Doc) (field : String) (f : Filter) : List Value :=
  let data := if f.isEmpty then st else st.filter (fun d => plainMatches d f)
  data.foldl (distinctStep field) []

/-- Embeds FileStorage.find_one (src/app/core/file_storage.py lines
34-40): the first document matching the Filter Matcher. -/
def fsFindOne (st : List Doc) (f : Filter) : Option Doc :=
  st.find? (fun d => matchesFilter d f)

/-- Embeds FileStorageAdapter.find_one (src/app/core/database.py lines
126-131): the first document matching the get-based matcher. -/
def faFindOne (st : List Doc) (f : Filter) : Option Doc :=
  st.find? (fun d => getMatches d f)

/-- Replacement of one existing entry by the updated value of its key,
when the update carries that key. -/
def updEntry (u : List (String × Value)) (kv : String × Value) : String × Value :=
  match lookupD u kv.1 with
  | some v => (kv.1, v)
  | none => kv

/-- Embeds Python dict.update(u): existing keys keep their position and
take the new value, new keys are appended in the order of u. -/
def dictUpdate (d : Doc) (u : List (String × Value)) : Doc :=
  d.map (updEntry u) ++ u.filter (fun kv => !(containsKey d kv.1))

/-- Embeds the $set unwrapping of the update paths (for example
FileStorageAdapter.update_one lines 170-173): a dict-valued $set entry
selects its fields, otherwise the whole update dict is merged.  A
non-dict $set raises TypeError at runtime in the source; it is modelled as
an empty merge and is not exercised by any claim. -/
def effectiveUpdate (u : List (String × Value)) : List (String × Value) :=
  match lookupD u "$set" with
  | some (.vdict m) => mapToList m
  | some _ => []
  | none => u

/-- Embeds FileStorageAdapter.update_one (src/app/core/database.py lines
165-177): scan for the first document matching the get-based matcher,
merge the update into it in place, and report how many were modified. -/
def fileUpdateOne : List Doc → Filter → List (String × Value) → List Doc × Nat
  | [], _, _ => ([], 0)
  | d :: rest, f, u =>
    if getMatches d f then (dictUpdate d (effectiveUpdate u) :: rest, 1)
    else
      let r := fileUpdateOne rest f u
      (d :: r.1, r.2)

/-- Embeds FileCollection.find_one_and_update (src/app/core/database.py
lines 307-320): like update_one but returning the updated document. -/
def fileFindOneAndUpdate : List Doc → Filter → List (String × Value) →
    List Doc × Option Doc
  | [], _, _ => ([], none)
  | d :: rest, f, u =>
    if getMatches d f then
      let d2 := dictUpdate d (effectiveUpdate u)
      (d2 :: rest, some d2)
    else
      let r := fileFindOneAndUpdate rest f u
      (d :: r.1, r.2)

/-- Embeds FileStorageAdapter.delete_one (src/app/core/database.py lines
179-188): remove the first document matching the get-based matcher. -/
def fileDeleteOne : List Doc → Filter → List Doc × Nat
  | [], _ => ([], 0)
  | d :: rest, f =>
    if getMatches d f then (rest, 1)
    else
      let r := fileDeleteOne rest f
      (d :: r.1, r.2)

/-- Embeds Python dict assignment d[k] = v: replace in place when the key
exists, append otherwise. -/
def dictSet (d : Doc) (k : String) (v : Value) : Doc :=
  if containsKey d k then d.map (fun kv => if kv.1 == k then (k, v) else kv)
  else d ++ [(k, v)]

/-- Embeds FileStorageAdapter.insert_one (src/app/core/database.py lines
153-163): assign a generated string id under _id when absent (the
uuid4 the source draws is passed in as freshId), append, and report the
inserted id. -/
def fileInsertOne (st : List Doc) (doc : Doc) (freshId : String) :
    List Doc × Value :=
  let doc := if containsKey doc "_id" then doc else dictSet doc "_id" (.vstr freshId)
  (st ++ [doc], (lookupD doc "_id").getD .vnull)

/-- The durable state of the File Backend: one entry per collection name
holding the full ordered document array of its backing file. -/
abbrev Store := List (String × List Doc)

/-- Embeds FileStorageAdapter.load_collection: the file contents, or an
empty array when the file does not exist. -/
def loadCollection (store : Store) (name : String) : List Doc :=
  match store.find? (fun e => e.1 == name) with
  | some e => e.2
  | none => []

/-- Embeds FileStorageAdapter.save_collection: overwrite the whole backing
file of the collection. -/
def saveCollection (store : Store) (name : String) (data : List Doc) : Store :=
  match store with
  | [] => [(name, data)]
  | e :: rest =>
    if e.1 == name then (name, data) :: rest
    else e :: saveCollection rest name data

/-- Materializing a find cursor at the store level: to_list loads the
backing collection, computes, and never calls save_collection, so the
store component is returned unchanged. -/
def cursorToListOp (store : Store) (name : String) (f : Filter)
    (srt : Option (String × Int)) (skip : Nat) (limit : Option Nat)
    (length : Option Nat) : List Doc × Store :=
  (cursorToList (loadCollection store name) f srt skip limit length, store)

/-- Materializing an aggregation cursor at the store level: again no
save_collection call, so the store component is returned unchanged. -/
def aggToListOp (store : Store) (name : String) (pipeline : List Stage)
    (length : Option Nat) : List Doc × Store :=
  (aggToList (loadCollection store name) pipeline length, store)

/-- FileStorageAdapter.update_one at the store level: the source saves the
rewritten array exactly when a match was found. -/
def updateOneOp (store : Store) (name : String) (f : Filter)
    (u : List (String × Value)) : Nat × Store :=
  let r := fileUpdateOne (loadCollection store name) f u
  if r.2 = 1 then (r.2, saveCollection store name r.1) else (r.2, store)

/-- Embeds ObjectId.is_valid on strings: a 24-character hex string. -/
def isValidObjectId (s : String) : Bool :=
  s.length == 24 && s.data.all (fun c =>
    c.isDigit || ("abcdefABCDEF".data.contains c))

/-- Embeds the UUID-format probe of PyObjectId.validate
(src/app/models/country.py line 17): length 36 and exactly four
dashes. -/
def isUuidFormat (s : String) : Bool :=
  s.length == 36 && (s.data.filter (fun c => c == '-')).length == 4

/-- Embeds PyObjectId.validate (src/app/models/country.py lines 11-22): an
ObjectId passes through; a UUID-format string stays a string; an
ObjectId-valid string becomes an ObjectId; anything else raises
ValueError, modelled as none. -/
def pyObjectIdValidate (v : Value) : Option Value :=
  match v with
  | .vobjid s => some (.vobjid s)
  | .vstr s =>
    if isUuidFormat s then some (.vstr s)
    else if isValidObjectId s then some (.vobjid s)
    else none
  | _ => none

/-- Dumping the id field: model_dump of the Country model stringifies an
ObjectId id (src/app/models/country.py lines 139-144). -/
def dumpId (v : Value) : Value :=
  match v with
  | .vobjid s => .vstr s
  | w => w

/-- Removal of every occurrence of a key from a document. -/
def removeKey (d : Doc) (k : String) : Doc :=
  d.filter (fun kv => !(kv.1 == k))

/-- Embeds the identity normalization performed by the Country model
(src/app/models/country.py lines 92-144): the field id carries the alias
_id with populate_by_name, so pydantic v2 reads _id first and falls back
to id; the value goes through PyObjectId.validate, and a document with
neither gets the default-factory ObjectId, passed in as freshId;
model_dump then emits the result under id (ObjectId stringified) and never
emits _id.  Validation of the remaining domain fields is out of scope
(spec section 1 excludes schema validation); they pass through. -/
def normalizeId (freshId : String) (doc : Doc) : Option Doc :=
  let raw :=
    match lookupD doc "_id" with
    | some v => some v
    | none => lookupD doc "id"
  let idv :=
    match raw with
    | some v => pyObjectIdValidate v
    | none => some (.vobjid freshId)
  match idv with
  | none => none
  | some v => some (("id", dumpId v) :: removeKey (removeKey doc "_id") "id")

/-- The CRUD layer reaches the storage through get_database(), which
returns the module-level db.adapter; that handle is None until a backend
has been initialized.  CountryCRUD.get_collection (src/app/crud/country.py
lines 15-20) returns None in that case, and every operation guards on
it. -/
def crudGetCollection (adapter : Option Store) : Option (Store × String) :=
  match adapter with
  | none => none
  | some store => some (store, "countries")

/-- Embeds CountryCRUD.get_by_slug (src/app/crud/country.py lines 49-54):
None without a backend, otherwise the adapter find_one on the slug.
Construction of the Country model from the document is out of scope. -/
def crudGetBySlug (adapter : Option Store) (slug : String) : Option Doc :=
  match crudGetCollection adapter with
  | none => none
  | some (store, cname) =>
    faFindOne (loadCollection store cname) [("slug", .vstr slug)]

/-- Embeds the i-flagged regex dict the search branch of get_all builds
for one field. -/
def searchRegex (q : String) : Value :=
  .vdict (.cons "$regex" (.vstr q) (.cons "$options" (.vstr "i") .nil))

/-- Embeds the $or list of regex conditions over name, slug and summary
built by CountryCRUD.get_all and count_all. -/
def searchOrValue (q : String) : Value :=
  .vlist (.cons (.vdict (.cons "name" (searchRegex q) .nil))
    (.cons (.vdict (.cons "slug" (searchRegex q) .nil))
      (.cons (.vdict (.cons "summary" (searchRegex q) .nil)) .nil)))

/-- Embeds the filter-building block shared by CountryCRUD.get_all and
count_all (src/app/crud/country.py lines 72-95): published_only forces
published true, else an explicit published flag is used; a truthy region
and a present visa_required add equality entries; a truthy search adds the
$or regex list. -/
def crudBuildFilter (publishedOnly : Bool) (published : Option Bool)
    (region : Option String) (visaRequired : Option Bool)
    (search : Option String) : Filter :=
  let f : Filter := []
  let f := if publishedOnly then f ++ [("published", Value.vbool true)]
    else match published with
      | some p => f ++ [("published", Value.vbool p)]
      | none => f
  let f := match region with
    | some r => if r ≠ "" then f ++ [("region", Value.vstr r)] else f
    | none => f
  let f := match visaRequired with
    | some b => f ++ [("visa_required", Value.vbool b)]
    | none => f
  match search with
  | some q => if q ≠ "" then f ++ [("$or", searchOrValue q)] else f
  | none => f

/-- Embeds the sort-selection block of CountryCRUD.get_all (lines
97-110): name sorts ascending by name, created_at and updated_at sort
descending, anything else (including no sort) falls back to updated_at
descending. -/
def crudSortSpec (sort : Option String) : String × Int :=
  match sort with
  | some "name" => ("name", 1)
  | some "created_at" => ("created_at", -1)
  | some "updated_at" => ("updated_at", -1)
  | _ => ("updated_at", -1)

/-- Embeds CountryCRUD.get_all (src/app/crud/country.py lines 56-115): an
empty list without a backend, otherwise the cursor chain
find(filter).skip(skip).limit(limit).sort(field, dir) materialized with
to_list(length=limit). -/
def crudGetAll (adapter : Option Store) (skip limit : Nat)
    (publishedOnly : Bool) (published : Option Bool) (region : Option String)
    (visaRequired : Option Bool) (search : Option String)
    (sort : Option String) : List Doc :=
  match crudGetCollection adapter with
  | none => []
  | some (store, cname) =>
    let f := crudBuildFilter publishedOnly published region visaRequired search
    let s := crudSortSpec sort
    cursorToList (loadCollection store cname) f (some s) skip (some limit)
      (some limit)

/-- Embeds CountryCRUD.count_all (src/app/crud/country.py lines 117-155):
zero without a backend, otherwise count_documents on the same filter. -/
def crudCountAll (adapter : Option Store) (publishedOnly : Bool)
    (published : Option Bool) (region : Option String)
    (visaRequired : Option Bool) (search : Option String) : Nat :=
  match crudGetCollection adapter with
  | none => 0
  | some (store, cname) =>
    countDocumentsFC (loadCollection store cname)
      (crudBuildFilter publishedOnly published region visaRequired search)

/-- Embeds CountryCRUD.get_regions (src/app/crud/country.py lines
178-183): an empty list without a backend, otherwise the sorted distinct
regions of the published documents. -/
def crudGetRegions (adapter : Option Store) : List Value :=
  match crudGetCollection adapter with
  | none => []
  | some (store, cname) =>
    sortByLt pyLt
      (distinctVals (loadCollection store cname) "region"
        [("published", Value.vbool true)])

/-- Embeds CountryCRUD.get_featured (src/app/crud/country.py lines
157-163): an empty list without a backend, otherwise the cursor on
featured and published with the given limit. -/
def crudGetFeatured (adapter : Option Store) (limit : Nat) : List Doc :=
  match crudGetCollection adapter with
  | none => []
  | some (store, cname) =>
    cursorToList (loadCollection store cname)
      [("featured", Value.vbool true), ("published", Value.vbool true)]
      none 0 (some limit) (some limit)

/-- Embeds CountryCRUD.search (src/app/crud/country.py lines 165-176): an
empty list without a backend, otherwise the cursor on the $text filter
conjoined with published. -/
def crudSearch (adapter : Option Store) (q : String) (limit : Nat) : List Doc :=
  match crudGetCollection adapter with
  | none => []
  | some (store, cname) =>
    cursorToList (loadCollection store cname)
      [("$text", .vdict (.cons "$search" (.vstr q) .nil)),
        ("published", Value.vbool true)]
      none 0 (some limit) (some limit)

/-- Embeds CountryCRUD.delete (src/app/crud/country.py lines 205-214):
False without a backend or for an invalid ObjectId string, otherwise
whether delete_one on the ObjectId removed a document. -/
def crudDelete (adapter : Option Store) (countryId : String) : Bool :=
  match crudGetCollection adapter with
  | none => false
  | some (store, cname) =>
    if isValidObjectId countryId then
      (fileDeleteOne (loadCollection store cname)
        [("_id", .vobjid countryId)]).2 > 0
    else false

/-- Conversion of an association list to the nested dict form. -/
def listToMap : List (String × Value) → ValueMap
  | [] => .nil
  | (k, v) :: rest => .cons k v (listToMap rest)

/-- Embeds CountryCRUD.update (src/app/crud/country.py lines 185-203):
None without a backend or for an invalid ObjectId string, otherwise
find_one_and_update with a $set of the dumped update fields plus a fresh
updated_at stamp (the wall-clock value is passed in as now; dumping the
pydantic update model is out of scope, the already-dumped fields are
passed in). -/
def crudUpdate (adapter : Option Store) (countryId : String)
    (upd : List (String × Value)) (now : Value) : Option Doc :=
  match crudGetCollection adapter with
  | none => none
  | some (store, cname) =>
    if isValidObjectId countryId then
      (fileFindOneAndUpdate (loadCollection store cname)
        [("_id", .vobjid countryId)]
        [("$set", .vdict (listToMap (dictSet upd "updated_at" now)))]).2
    else none

/-- Embeds CountryCRUD.create (src/app/crud/country.py lines 22-36): with
no backend it raises the generic error Database not available; otherwise
it stamps created_at and updated_at (wall clock passed in as now), inserts
(fresh uuid passed in as freshId), and re-reads the inserted document. -/
def crudCreate (adapter : Option Store) (data : Doc) (now : Value)
    (freshId : String) : Except String (Option Doc) :=
  match crudGetCollection adapter with
  | none => .error "Database not available"
  | some (store, cname) =>
    let d := dictSet (dictSet data "created_at" now) "updated_at" now
    let r := fileInsertOne (loadCollection store cname) d freshId
    .ok (faFindOne r.1 [("_id", r.2)])

lemma lookupD_nil (k : String) : lookupD [] k = none := rfl

lemma lookupD_cons (p : String × Value) (d : Doc) (k : String) :
    lookupD (p :: d) k = if p.1 == k then some p.2 else lookupD d k := by
  simp only [lookupD, List.find?_cons]
  cases h : p.1 == k <;> simp [h]

lemma cursorMatches_nil (d : Doc) : cursorMatches d [] = true := rfl

lemma plainMatches_nil (d : Doc) : plainMatches d [] = true := rfl

lemma filter_cursorMatches_nil (st : List Doc) :
    st.filter (fun d => cursorMatches d []) = st :=
  List.filter_eq_self.mpr (fun _ _ => rfl)

lemma filter_plainMatches_nil (st : List Doc) :
    st.filter (fun d => plainMatches d []) = st :=
  List.filter_eq_self.mpr (fun _ _ => rfl)

/-- C9: materializing a File Backend cursor, plain or aggregation, with
any filter, sort, skip, limit and pipeline, returns the store component
unchanged: to_list never calls save_collection, so the backing files keep
exactly the document sequences they had before. -/
theorem materialization_never_mutates_store (store : Store) (name : String)
    (f : Filter) (srt : Option (String × Int)) (skip : Nat)
    (limit length lengthA : Option Nat) (pipeline : List Stage) :
    (cursorToListOp store name f srt skip limit length).2 = store ∧
      (aggToListOp store name pipeline lengthA).2 = store :=
  ⟨rfl, rfl⟩

/-- C4: for every collection state and filter of the supported grammar,
the pipeline of a $match stage followed by a group-everything count stage
yields the single row with id None and the exact count that
count_documents reports for the same filter on the same state. -/
theorem aggregate_count_agreement (st : List Doc) (f : Filter) :
    aggToList st
        [Stage.smatch f, Stage.sgroup [("_id", Value.vnull), ("count", sumOneSpec)]]
        none
      = [[("_id", Value.vnull), ("count", Value.vint (countDocumentsFC st f))]] := by
  cases f with
  | nil =>
    simp [aggToList, applyStage, groupRows, lookupD_cons, countDocumentsFC,
      filter_plainMatches_nil]
  | cons kv rest =>
    simp [aggToList, applyStage, groupRows, lookupD_cons, countDocumentsFC,
      List.isEmpty_cons]

/-- C2: the pagination law of the File Backend cursor.  Writing R for the
filtered-then-sorted sequence, to_list returns the slice R[s : s+l] of R,
all of R[s:] when the limit is 0 or absent, and the empty sequence for any
skip at or beyond the length of R; the processing order is filter, then
sort, then skip, then limit. -/
theorem cursor_pagination_law (st : List Doc) (f : Filter)
    (srt : Option (String × Int)) (s : Nat) (l : Option Nat) (j : Nat) :
    (cursorToList st f srt s l none =
      (match l with
      | none => (applySortC srt (st.filter (fun d => cursorMatches d f))).drop s
      | some 0 => (applySortC srt (st.filter (fun d => cursorMatches d f))).drop s
      | some (n + 1) =>
        ((applySortC srt (st.filter (fun d => cursorMatches d f))).drop s).take (n + 1)))
    ∧ cursorToList st f srt
        ((applySortC srt (st.filter (fun d => cursorMatches d f))).length + j) l none
      = [] := by
  have hdata : (if f.isEmpty then st else st.filter (fun d => cursorMatches d f))
      = st.filter (fun d => cursorMatches d f) := by
    cases f with
    | nil => simp [filter_cursorMatches_nil]
    | cons kv rest => rfl
  constructor
  · simp only [cursorToList, hdata]
    cases l with
    | none => rfl
    | some n =>
      cases n with
      | zero => rfl
      | succ m =>
        simp only [pySlice]
        rw [← List.take_drop]
  · simp only [cursorToList, hdata]
    cases l with
    | none => exact List.drop_eq_nil_of_le (Nat.le_add_right _ _)
    | some n =>
      cases n with
      | zero => exact List.drop_eq_nil_of_le (Nat.le_add_right _ _)
      | succ m =>
        simp only [pySlice]
        rw [← List.take_drop,
          List.drop_eq_nil_of_le (Nat.le_add_right _ _), List.take_nil]

lemma textFieldHit_iff (d : Doc) (t fl : String) :
    textFieldHit d t fl = true ↔
      ∃ w, lookupD d fl = some w ∧ pyIn t (pyLower (pyStr w)) = true := by
  unfold textFieldHit
  cases h : lookupD d fl <;> simp [h]

/-- C1: the File Backend filter matcher accepts a document exactly when
every non-$text key of the filter is present in the document with an equal
value and, for a $text key, the lowered search term occurs in the lowered
rendering of the name field or of the summary field; a missing key never
matches and the top-level keys are conjoined. -/
theorem filter_matcher_characterization (d : Doc) (f : Filter) :
    matchesFilter d f = true ↔
      ((∀ kv ∈ f, kv.1 ≠ "$text" → lookupD d kv.1 = some kv.2) ∧
       (∀ kv ∈ f, kv.1 = "$text" →
         ((∃ w, lookupD d "name" = some w ∧
            pyIn (pyLower (searchTermOf kv.2)) (pyLower (pyStr w)) = true) ∨
          (∃ w, lookupD d "summary" = some w ∧
            pyIn (pyLower (searchTermOf kv.2)) (pyLower (pyStr w)) = true)))) := by
  unfold matchesFilter
  rw [List.all_eq_true]
  constructor
  · intro h
    constructor
    · intro kv hm hne
      have hv := h kv hm
      simp only [beq_eq_false_iff_ne.mpr hne, Bool.false_eq_true, if_false] at hv
      cases hl : lookupD d kv.1 with
      | none => rw [hl] at hv; exact absurd hv (by simp)
      | some w =>
        rw [hl] at hv
        rw [beq_iff_eq.mp hv]
    · intro kv hm he
      have hv := h kv hm
      simp only [beq_iff_eq.mpr he, if_true, List.any_cons, List.any_nil,
        Bool.or_false, Bool.or_eq_true, textFieldHit_iff] at hv
      exact hv
  · rintro ⟨h1, h2⟩ kv hm
    by_cases he : kv.1 = "$text"
    · simp only [beq_iff_eq.mpr he, if_true, List.any_cons, List.any_nil,
        Bool.or_false, Bool.or_eq_true, textFieldHit_iff]
      exact h2 kv hm he
    · simp only [beq_eq_false_iff_ne.mpr he, Bool.false_eq_true, if_false]
      rw [h1 kv hm he]
      simp

lemma plainMatches_eq_matchesFilter_of_no_text (d : Doc) :
    ∀ (F : Filter), (∀ kv ∈ F, kv.1 ≠ "$text") →
      plainMatches d F = matchesFilter d F := by
  intro F
  induction F with
  | nil => intro _; rfl
  | cons kv rest ih =>
    intro h
    have hne : (kv.1 == "$text") = false :=
      beq_eq_false_iff_ne.mpr (h kv (List.mem_cons_self kv rest))
    unfold plainMatches matchesFilter
    simp only [List.all_cons, hne, Bool.false_eq_true, if_false]
    have hrest := ih (fun kv2 hm => h kv2 (List.mem_cons_of_mem kv hm))
    unfold plainMatches matchesFilter at hrest
    rw [hrest]

/-- C5 counterexample: on the document with name France and the filter
with only a $text search for Fran, the Filter Matcher of section 4.2
accepts, yet the aggregation $match stage keeps no row: the stage treats
$text as an ordinary field name, which the document lacks.  The claim that
the two are extensionally equal even on $text filters is therefore
false. -/
theorem match_stage_text_counterexample :
    matchesFilter [("name", Value.vstr "France")]
        [("$text", Value.vdict (.cons "$search" (.vstr "Fran") .nil))] = true
    ∧ applyStage [[("name", Value.vstr "France")]]
        (Stage.smatch [("$text", Value.vdict (.cons "$search" (.vstr "Fran") .nil))]) = [] := by
  decide

/-- C5 amended: for every row set and every filter containing no $text
key, the aggregation $match stage keeps exactly the rows the Filter
Matcher of section 4.2 accepts; on filters with $text the stage instead
treats the operator as an ordinary (absent) field. -/
theorem match_stage_refines_matcher (rows : List Doc) (F : Filter)
    (h : ∀ kv ∈ F, kv.1 ≠ "$text") :
    applyStage rows (Stage.smatch F) = rows.filter (fun d => matchesFilter d F) := by
  simp only [applyStage]
  exact List.filter_congr (fun d _ => plainMatches_eq_matchesFilter_of_no_text d F h)

theorem match_stage_refines_matcher_witness :
    applyStage [[("published", Value.vbool true)], [("published", Value.vbool false)]]
        (Stage.smatch [("published", Value.vbool true)])
      = [[("published", Value.vbool true)]] := by
  rw [match_stage_refines_matcher _ _ (by decide)]
  decide

/-- C3 counterexample: the filter with the unsupported operator $or, on a
collection whose single document would satisfy the disjunct, makes
find_one return None and count_documents return 0: the File Backend
treats $or as an ordinary absent field name and matches nothing.  No
UnsupportedQuery failure exists anywhere in the source, so the claim that
such filters fail with UnsupportedQuery is false. -/
theorem unsupported_operator_counterexample :
    fsFindOne [[("name", Value.vstr "France")]] [("$or", searchOrValue "France")] = none
    ∧ countDocumentsFC [[("name", Value.vstr "France")]] [("$or", searchOrValue "France")] = 0 := by
  decide

/-- C3 amended: a filter whose first entry carries an operator key outside
the supported grammar (any key other than $text, never present as a field
of the stored documents) is silently treated as an ordinary field-name
equality test, so it matches nothing: find_one returns None and
count_documents returns 0, and no error is raised. -/
theorem unsupported_operator_silently_ignored (st : List Doc) (k : String)
    (v : Value) (rest : Filter) (hk : k ≠ "$text")
    (habsent : ∀ d ∈ st, lookupD d k = none) :
    fsFindOne st ((k, v) :: rest) = none ∧
      countDocumentsFC st ((k, v) :: rest) = 0 := by
  have hmf : ∀ d ∈ st, matchesFilter d ((k, v) :: rest) = false := by
    intro d hd
    unfold matchesFilter
    simp only [List.all_cons, beq_eq_false_iff_ne.mpr hk, Bool.false_eq_true,
      if_false, habsent d hd, Bool.false_and]
  have hpm : ∀ d ∈ st, plainMatches d ((k, v) :: rest) = false := by
    intro d hd
    unfold plainMatches
    simp only [List.all_cons, habsent d hd, Bool.false_and]
  constructor
  · exact List.find?_eq_none.mpr (fun d hd => by simp [hmf d hd])
  · unfold countDocumentsFC
    have : st.filter (fun d => plainMatches d ((k, v) :: rest)) = [] := by
      rw [List.filter_eq_nil_iff]
      intro d hd
      simp [hpm d hd]
    simp [this]

theorem unsupported_operator_silently_ignored_witness :
    fsFindOne [[("name", Value.vstr "Japan")]] [("$or", searchOrValue "Japan")] = none ∧
      countDocumentsFC [[("name", Value.vstr "Japan")]] [("$or", searchOrValue "Japan")] = 0 :=
  unsupported_operator_silently_ignored _ _ _ _ (by decide) (by decide)

lemma containsKey_of_mem {s : List (String × Value)} {kv : String × Value}
    (h : kv ∈ s) : containsKey s kv.1 = true := by
  unfold containsKey
  rw [List.any_eq_true]
  exact ⟨kv, h, by simp⟩

lemma lookupD_eq_of_mem_nodup {s : List (String × Value)} :
    (s.map Prod.fst).Nodup → ∀ {kv : String × Value}, kv ∈ s →
      lookupD s kv.1 = some kv.2 := by
  induction s with
  | nil => intro _ kv h; exact absurd h (List.not_mem_nil kv)
  | cons p rest ih =>
    intro hnd kv h
    rw [List.map_cons, List.nodup_cons] at hnd
    rw [lookupD_cons]
    rcases List.mem_cons.mp h with he | hm
    · subst he
      simp
    · have hne : (p.1 == kv.1) = false := by
        rw [beq_eq_false_iff_ne]
        intro heq
        exact hnd.1 (heq ▸ List.mem_map_of_mem Prod.fst hm)
      rw [hne]
      simp only [Bool.false_eq_true, if_false]
      exact ih hnd.2 hm

lemma updEntry_fst (u : List (String × Value)) (kv : String × Value) :
    (updEntry u kv).1 = kv.1 := by
  unfold updEntry
  cases lookupD u kv.1 <;> rfl

lemma updEntry_idem (u : List (String × Value)) (kv : String × Value) :
    updEntry u (updEntry u kv) = updEntry u kv := by
  unfold updEntry
  cases h : lookupD u kv.1 with
  | none => rw [h]
  | some v => simp [h]

lemma containsKey_dictUpdate_of_right {d s : List (String × Value)}
    {k : String} (h : containsKey s k = true) :
    containsKey (dictUpdate d s) k = true := by
  unfold containsKey at h ⊢
  rw [List.any_eq_true] at h
  obtain ⟨kv, hm, he⟩ := h
  rw [dictUpdate, List.any_append, Bool.or_eq_true]
  by_cases hd : containsKey d k = true
  · left
    unfold containsKey at hd
    rw [List.any_eq_true] at hd ⊢
    obtain ⟨p, hp, hpe⟩ := hd
    exact ⟨updEntry s p, List.mem_map_of_mem _ hp, by rw [updEntry_fst]; exact hpe⟩
  · right
    rw [List.any_eq_true]
    refine ⟨kv, List.mem_filter.mpr ⟨hm, ?_⟩, he⟩
    have : kv.1 = k := beq_iff_eq.mp he
    rw [this]
    simp [Bool.not_eq_true] at hd ⊢
    exact hd

lemma dictUpdate_idem {d s : List (String × Value)}
    (hnd : (s.map Prod.fst).Nodup) :
    dictUpdate (dictUpdate d s) s = dictUpdate d s := by
  have h2 : s.filter (fun kv => !(containsKey (dictUpdate d s) kv.1)) = [] := by
    rw [List.filter_eq_nil_iff]
    intro kv hm
    rw [containsKey_dictUpdate_of_right (containsKey_of_mem hm)]
    simp
  calc dictUpdate (dictUpdate d s) s
      = (dictUpdate d s).map (updEntry s) ++ [] := by rw [dictUpdate, h2]
    _ = (d.map (updEntry s)).map (updEntry s)
          ++ (s.filter (fun kv => !(containsKey d kv.1))).map (updEntry s) := by
        rw [List.append_nil, dictUpdate, List.map_append]
    _ = d.map (updEntry s) ++ s.filter (fun kv => !(containsKey d kv.1)) := by
        congr 1
        · rw [List.map_map]
          exact List.map_congr_left (fun kv _ => updEntry_idem s kv)
        · rw [← List.map_id (s.filter (fun kv => !(containsKey d kv.1)))]
          rw [List.map_map]
          refine List.map_congr_left (fun kv hm => ?_)
          have hms : kv ∈ s := (List.mem_filter.mp hm).1
      -- an entry of the update itself is mapped to itself: its key looks
      -- up its own value because the update keys are duplicate-free
          simp only [Function.comp, id, updEntry, lookupD_eq_of_mem_nodup hnd hms]
    _ = dictUpdate d s := by rw [dictUpdate]

/-- C6 counterexample: on a collection of two documents both matching the
filter on field a, the update that sets a to 2 falsifies the filter for
the first document, so a second identical update_one rewrites the second
document instead: applying the update twice yields a different final
collection state (and a different final matched document) than applying
it once.  The claim that the update is idempotent without qualification is
therefore false. -/
theorem update_one_twice_counterexample :
    (fileUpdateOne (fileUpdateOne
        [[("a", Value.vint 1), ("b", Value.vint 1)],
         [("a", Value.vint 1), ("b", Value.vint 2)]]
        [("a", Value.vint 1)]
        [("$set", Value.vdict (.cons "a" (.vint 2) .nil))]).1
      [("a", Value.vint 1)]
      [("$set", Value.vdict (.cons "a" (.vint 2) .nil))]).1
    ≠ (fileUpdateOne
        [[("a", Value.vint 1), ("b", Value.vint 1)],
         [("a", Value.vint 1), ("b", Value.vint 2)]]
        [("a", Value.vint 1)]
        [("$set", Value.vdict (.cons "a" (.vint 2) .nil))]).1 := by
  decide

/-- C6 amended: update_one applied twice produces the same final
collection state as applied once, provided the update dict has
duplicate-free field names and the merge keeps every matching document
matching (in particular whenever the update does not touch the fields the
filter constrains); without that proviso the second application can
rewrite a different document, as the counterexample shows. -/
lemma fileUpdateOne_cons_pos {d : Doc} {rest : List Doc} {f : Filter}
    {u : List (String × Value)} (h : getMatches d f = true) :
    fileUpdateOne (d :: rest) f u = (dictUpdate d (effectiveUpdate u) :: rest, 1) := by
  simp only [fileUpdateOne, h, if_true]

lemma fileUpdateOne_cons_neg {d : Doc} {rest : List Doc} {f : Filter}
    {u : List (String × Value)} (h : ¬ getMatches d f = true) :
    fileUpdateOne (d :: rest) f u
      = (d :: (fileUpdateOne rest f u).1, (fileUpdateOne rest f u).2) := by
  simp only [fileUpdateOne, h, Bool.false_eq_true, if_false]

theorem update_one_idempotent (st : List Doc) (f : Filter)
    (u : List (String × Value))
    (hnd : ((effectiveUpdate u).map Prod.fst).Nodup)
    (hpres : ∀ d ∈ st, getMatches d f = true →
      getMatches (dictUpdate d (effectiveUpdate u)) f = true) :
    (fileUpdateOne (fileUpdateOne st f u).1 f u).1 = (fileUpdateOne st f u).1 := by
  induction st with
  | nil => rfl
  | cons d rest ih =>
    by_cases h : getMatches d f = true
    · rw [fileUpdateOne_cons_pos h]
      have h2 : getMatches (dictUpdate d (effectiveUpdate u)) f = true :=
        hpres d (List.mem_cons_self d rest) h
      show (fileUpdateOne (dictUpdate d (effectiveUpdate u) :: rest) f u).1
          = dictUpdate d (effectiveUpdate u) :: rest
      rw [fileUpdateOne_cons_pos h2]
      simp only [dictUpdate_idem hnd]
    · rw [fileUpdateOne_cons_neg h]
      show (fileUpdateOne (d :: (fileUpdateOne rest f u).1) f u).1
          = d :: (fileUpdateOne rest f u).1
      rw [fileUpdateOne_cons_neg h]
      simp only [List.cons.injEq, true_and]
      exact ih (fun d2 hm hg => hpres d2 (List.mem_cons_of_mem d hm) hg)

theorem update_one_idempotent_witness :
    (fileUpdateOne (fileUpdateOne
        [[("a", Value.vint 1), ("b", Value.vint 1)],
         [("a", Value.vint 1), ("b", Value.vint 2)]]
        [("b", Value.vint 1)]
        [("$set", Value.vdict (.cons "a" (.vint 2) .nil))]).1
      [("b", Value.vint 1)]
      [("$set", Value.vdict (.cons "a" (.vint 2) .nil))]).1
    = (fileUpdateOne
        [[("a", Value.vint 1), ("b", Value.vint 1)],
         [("a", Value.vint 1), ("b", Value.vint 2)]]
        [("b", Value.vint 1)]
        [("$set", Value.vdict (.cons "a" (.vint 2) .nil))]).1 :=
  update_one_idempotent _ _ _ (by decide) (by decide)

/-- C7 counterexample: every embedded CRUD operation invoked with no
backend initialized (the adapter handle still None) returns the very
fallback the claim excludes: None for the single-document lookups, an
empty list for the list queries, zero for the count, False for the
delete; only create raises, and with the generic message Database not
available, not a NotConnected error (no NotConnected error exists in the
source). -/
theorem not_connected_counterexample :
    crudGetBySlug none "france" = none ∧
    crudGetAll none 0 20 true none none none none none = [] ∧
    crudCountAll none false none none none none = 0 ∧
    crudGetRegions none = [] ∧
    crudGetFeatured none 6 = [] ∧
    crudSearch none "visa" 20 = [] ∧
    crudDelete none "0123456789abcdef01234567" = false ∧
    crudUpdate none "0123456789abcdef01234567" [] Value.vnull = none ∧
    crudCreate none [] Value.vnull "id-1" = Except.error "Database not available" :=
  ⟨rfl, rfl, rfl, rfl, rfl, rfl, rfl, rfl, rfl⟩

/-- C7 amended: for all arguments, the CRUD operations invoked before a
backend is initialized return neutral fallback values (absent, empty,
zero, false), and create alone fails, with the generic message Database
not available; none of them raises a NotConnected error, which does not
exist in the source. -/
theorem disconnected_operations_return_fallbacks (slug q cid : String)
    (skip limit : Nat) (po : Bool) (pb vr : Option Bool)
    (rg srch srt : Option String) (upd : List (String × Value)) (now : Value)
    (d : Doc) (fid : String) :
    crudGetBySlug none slug = none ∧
    crudGetAll none skip limit po pb rg vr srch srt = [] ∧
    crudCountAll none po pb rg vr srch = 0 ∧
    crudGetRegions none = [] ∧
    crudGetFeatured none limit = [] ∧
    crudSearch none q limit = [] ∧
    crudDelete none cid = false ∧
    crudUpdate none cid upd now = none ∧
    crudCreate none d now fid = Except.error "Database not available" :=
  ⟨rfl, rfl, rfl, rfl, rfl, rfl, rfl, rfl, rfl⟩

lemma mem_distinctStep {field : String} {acc : List Value} {d : Doc}
    {v : Value} :
    v ∈ distinctStep field acc d ↔
      v ∈ acc ∨ (lookupD d field = some v ∧ v ≠ Value.vnull) := by
  unfold distinctStep
  cases h : lookupD d field with
  | none => simp
  | some w =>
    by_cases hn : w = Value.vnull
    · subst hn
      simp
      intro h1 h2
      exact absurd h1.symm h2
    · simp only [hn, if_true, ne_eq, not_false_iff]
      by_cases hm : acc.contains w = true
      · rw [if_pos hm]
        constructor
        · intro ha
          exact Or.inl ha
        · rintro (ha | ⟨hw, _⟩)
          · exact ha
          · have : w = v := by injection hw
            subst this
            exact List.elem_iff.mp hm
      · rw [if_neg hm]
        rw [List.mem_append, List.mem_singleton]
        constructor
        · rintro (ha | he)
          · exact Or.inl ha
          · subst he
            exact Or.inr ⟨rfl, hn⟩
        · rintro (ha | ⟨hw, _⟩)
          · exact Or.inl ha
          · right
            injection hw with hw
            exact hw.symm

lemma mem_foldl_distinctStep {field : String} :
    ∀ (data : List Doc) (acc : List Value) (v : Value),
      v ∈ data.foldl (distinctStep field) acc ↔
        v ∈ acc ∨ ∃ d ∈ data, lookupD d field = some v ∧ v ≠ Value.vnull := by
  intro data
  induction data with
  | nil => intro acc v; simp
  | cons d rest ih =>
    intro acc v
    rw [List.foldl_cons, ih, mem_distinctStep]
    constructor
    · rintro ((ha | hd) | ⟨d2, hm, hp⟩)
      · exact Or.inl ha
      · exact Or.inr ⟨d, List.mem_cons_self d rest, hd⟩
      · exact Or.inr ⟨d2, List.mem_cons_of_mem d hm, hp⟩
    · rintro (ha | ⟨d2, hm, hp⟩)
      · exact Or.inl (Or.inl ha)
      · rcases List.mem_cons.mp hm with he | hm2
        · subst he
          exact Or.inl (Or.inr hp)
        · exact Or.inr ⟨d2, hm2, hp⟩

lemma nodup_distinctStep {field : String} {acc : List Value} {d : Doc}
    (h : acc.Nodup) : (distinctStep field acc d).Nodup := by
  unfold distinctStep
  cases hl : lookupD d field with
  | none => exact h
  | some w =>
    by_cases hn : w = Value.vnull
    · simp [hn, h]
    · simp only [hn, if_true, ne_eq, not_false_iff]
      by_cases hm : acc.contains w = true
      · rw [if_pos hm]
        exact h
      · rw [if_neg hm]
        rw [List.nodup_append]
        refine ⟨h, List.nodup_singleton w, ?_⟩
        intro a ha hb
        rw [List.mem_singleton] at hb
        subst hb
        exact hm (List.elem_iff.mpr ha)

lemma nodup_foldl_distinctStep {field : String} :
    ∀ (data : List Doc) (acc : List Value), acc.Nodup →
      (data.foldl (distinctStep field) acc).Nodup := by
  intro data
  induction data with
  | nil => intro acc h; exact h
  | cons d rest ih =>
    intro acc h
    rw [List.foldl_cons]
    exact ih _ (nodup_distinctStep h)

lemma mem_distinctVals {st : List Doc} {field : String} {f : Filter}
    {v : Value} :
    v ∈ distinctVals st field f ↔
      ∃ d ∈ st, plainMatches d f = true ∧ lookupD d field = some v ∧
        v ≠ Value.vnull := by
  unfold distinctVals
  cases f with
  | nil =>
    rw [List.isEmpty_nil, if_pos rfl, mem_foldl_distinctStep]
    simp [plainMatches_nil]
  | cons kv rest =>
    rw [List.isEmpty_cons, if_neg (by simp), mem_foldl_distinctStep]
    simp only [List.not_mem_nil, false_or, List.mem_filter]
    constructor
    · rintro ⟨d, ⟨hm, hp⟩, hq⟩
      exact ⟨d, hm, hp, hq⟩
    · rintro ⟨d, hm, hp, hq⟩
      exact ⟨d, ⟨hm, hp⟩, hq⟩

/-- C10: the distinct operation of the File Backend returns exactly the
set of non-None values that the given field takes on the documents
matching the filter: a value is returned iff some matching document
carries the field with that value and it is not None, the returned
collection is duplicate-free, and its membership is invariant under any
permutation of the stored documents. -/
theorem distinct_characterization (st st2 : List Doc) (field : String)
    (f : Filter) (hperm : st.Perm st2) :
    (∀ v, v ∈ distinctVals st field f ↔
      ∃ d ∈ st, plainMatches d f = true ∧ lookupD d field = some v ∧
        v ≠ Value.vnull)
    ∧ (distinctVals st field f).Nodup
    ∧ (∀ v, v ∈ distinctVals st field f ↔ v ∈ distinctVals st2 field f) := by
  refine ⟨fun v => mem_distinctVals, ?_, fun v => ?_⟩
  · unfold distinctVals
    exact nodup_foldl_distinctStep _ _ List.nodup_nil
  · rw [mem_distinctVals, mem_distinctVals]
    constructor
    · rintro ⟨d, hm, hp⟩
      exact ⟨d, hperm.mem_iff.mp hm, hp⟩
    · rintro ⟨d, hm, hp⟩
      exact ⟨d, hperm.mem_iff.mpr hm, hp⟩

theorem distinct_characterization_witness :
    (Value.vstr "X" ∈ distinctVals
        [[("region", Value.vstr "X"), ("published", Value.vbool true)],
         [("region", Value.vstr "Y"), ("published", Value.vbool true)]]
        "region" [("published", Value.vbool true)] ↔
      ∃ d ∈ [[("region", Value.vstr "X"), ("published", Value.vbool true)],
         [("region", Value.vstr "Y"), ("published", Value.vbool true)]],
        plainMatches d [("published", Value.vbool true)] = true ∧
          lookupD d "region" = some (Value.vstr "X") ∧
          Value.vstr "X" ≠ Value.vnull)
    ∧ (distinctVals
        [[("region", Value.vstr "X"), ("published", Value.vbool true)],
         [("region", Value.vstr "Y"), ("published", Value.vbool true)]]
        "region" [("published", Value.vbool true)]).Nodup
    ∧ (Value.vstr "X" ∈ distinctVals
        [[("region", Value.vstr "X"), ("published", Value.vbool true)],
         [("region", Value.vstr "Y"), ("published", Value.vbool true)]]
        "region" [("published", Value.vbool true)] ↔
      Value.vstr "X" ∈ distinctVals
        [[("region", Value.vstr "Y"), ("published", Value.vbool true)],
         [("region", Value.vstr "X"), ("published", Value.vbool true)]]
        "region" [("published", Value.vbool true)]) := by
  have h := distinct_characterization
    [[("region", Value.vstr "X"), ("published", Value.vbool true)],
     [("region", Value.vstr "Y"), ("published", Value.vbool true)]]
    [[("region", Value.vstr "Y"), ("published", Value.vbool true)],
     [("region", Value.vstr "X"), ("published", Value.vbool true)]]
    "region" [("published", Value.vbool true)]
    (List.Perm.swap _ _ _)
  exact ⟨h.1 _, h.2.1, h.2.2 _⟩

lemma mem_removeKey {d : Doc} {k : String} {kv : String × Value}
    (h : kv ∈ removeKey d k) : kv ∈ d ∧ kv.1 ≠ k := by
  rw [removeKey, List.mem_filter] at h
  refine ⟨h.1, ?_⟩
  have := h.2
  simp only [Bool.not_eq_true'] at this
  exact beq_eq_false_iff_ne.mp this

lemma removeKey_eq_self_of {d : Doc} {k : String}
    (h : ∀ kv ∈ d, kv.1 ≠ k) : removeKey d k = d :=
  List.filter_eq_self.mpr
    (fun kv hm => by simp [beq_eq_false_iff_ne.mpr (h kv hm)])

lemma filter_key_double_remove (doc : Doc) (k1 k2 j : String)
    (hj : j = k1 ∨ j = k2) :
    (removeKey (removeKey doc k1) k2).filter (fun kv => kv.1 == j) = [] := by
  rw [List.filter_eq_nil_iff]
  intro kv hm
  obtain ⟨hm1, hne2⟩ := mem_removeKey hm
  obtain ⟨_, hne1⟩ := mem_removeKey hm1
  rcases hj with he | he
  · subst he
    simp [hne1]
  · subst he
    simp [hne2]

lemma lookupD_key_double_remove (doc : Doc) (k1 k2 j : String)
    (hj : j = k1 ∨ j = k2) :
    lookupD (removeKey (removeKey doc k1) k2) j = none := by
  unfold lookupD
  rw [List.find?_eq_none.mpr]
  intro kv hm
  obtain ⟨hm1, hne2⟩ := mem_removeKey hm
  obtain ⟨_, hne1⟩ := mem_removeKey hm1
  rcases hj with he | he
  · subst he
    simp [hne1]
  · subst he
    simp [hne2]

lemma isUuidFormat_false_of_valid {s : String}
    (h : isValidObjectId s = true) : isUuidFormat s = false := by
  unfold isValidObjectId at h
  unfold isUuidFormat
  rw [Bool.and_eq_true] at h
  have h24 : s.length = 24 := by
    have := h.1
    simpa using this
  rw [h24]
  rfl

lemma validate_dump_stable {v : Value}
    (hvok : (∃ s, v = .vstr s ∧ isUuidFormat s = true) ∨
      (∃ s, v = .vobjid s ∧ isValidObjectId s = true)) :
    ∃ v2, pyObjectIdValidate (dumpId v) = some v2 ∧ dumpId v2 = dumpId v := by
  rcases hvok with ⟨s, he, hu⟩ | ⟨s, he, hv⟩
  · subst he
    exact ⟨.vstr s, by simp [dumpId, pyObjectIdValidate, hu], rfl⟩
  · subst he
    refine ⟨.vobjid s, ?_, rfl⟩
    simp [dumpId, pyObjectIdValidate, isUuidFormat_false_of_valid hv, hv]

lemma pyObjectIdValidate_range {w v : Value}
    (h : pyObjectIdValidate w = some v)
    (hwf : ∀ s, w = .vobjid s → isValidObjectId s = true) :
    (∃ s, v = .vstr s ∧ isUuidFormat s = true) ∨
      (∃ s, v = .vobjid s ∧ isValidObjectId s = true) := by
  cases w with
  | vobjid s =>
    right
    refine ⟨s, ?_, hwf s rfl⟩
    unfold pyObjectIdValidate at h
    injection h with h
    exact h.symm
  | vstr s =>
    simp only [pyObjectIdValidate] at h
    by_cases hu : isUuidFormat s = true
    · rw [if_pos hu] at h
      injection h with h
      exact Or.inl ⟨s, h.symm, hu⟩
    · rw [if_neg hu] at h
      by_cases ho : isValidObjectId s = true
      · rw [if_pos ho] at h
        injection h with h
        exact Or.inr ⟨s, h.symm, ho⟩
      · rw [if_neg ho] at h
        exact absurd h (by simp)
  | vnull => exact absurd h (by simp [pyObjectIdValidate])
  | vbool b => exact absurd h (by simp [pyObjectIdValidate])
  | vint n => exact absurd h (by simp [pyObjectIdValidate])
  | vlist xs => exact absurd h (by simp [pyObjectIdValidate])
  | vdict fs => exact absurd h (by simp [pyObjectIdValidate])

lemma normalized_shape_contract (v : Value) (doc : Doc)
    (hvok : (∃ s, v = .vstr s ∧ isUuidFormat s = true) ∨
      (∃ s, v = .vobjid s ∧ isValidObjectId s = true)) :
    (((("id", dumpId v) :: removeKey (removeKey doc "_id") "id").filter
        (fun kv => kv.1 == "id")).length = 1
     ∧ ((("id", dumpId v) :: removeKey (removeKey doc "_id") "id").filter
        (fun kv => kv.1 == "_id")).length = 0
     ∧ ∀ fresh2,
        normalizeId fresh2 (("id", dumpId v) :: removeKey (removeKey doc "_id") "id")
          = some (("id", dumpId v) :: removeKey (removeKey doc "_id") "id")) := by
  refine ⟨?_, ?_, ?_⟩
  · rw [List.filter_cons]
    simp only [beq_self_eq_true, if_true,
      filter_key_double_remove doc "_id" "id" "id" (Or.inr rfl)]
    rfl
  · rw [List.filter_cons]
    have hne : (("id", dumpId v).1 == "_id") = false := rfl
    simp only [hne, Bool.false_eq_true, if_false,
      filter_key_double_remove doc "_id" "id" "_id" (Or.inl rfl)]
    rfl
  · intro fresh2
    have hlid : lookupD (("id", dumpId v) :: removeKey (removeKey doc "_id") "id") "_id"
        = none := by
      rw [lookupD_cons]
      have hne : (("id", dumpId v).1 == "_id") = false := rfl
      rw [hne]
      simp only [Bool.false_eq_true, if_false]
      exact lookupD_key_double_remove doc "_id" "id" "_id" (Or.inl rfl)
    have hlid2 : lookupD (("id", dumpId v) :: removeKey (removeKey doc "_id") "id") "id"
        = some (dumpId v) := by
      rw [lookupD_cons]
      rfl
    obtain ⟨v2, hval, hdump⟩ := validate_dump_stable hvok
    have hrest : removeKey (removeKey
        (("id", dumpId v) :: removeKey (removeKey doc "_id") "id") "_id") "id"
        = removeKey (removeKey doc "_id") "id" := by
      have h1 : removeKey (("id", dumpId v) :: removeKey (removeKey doc "_id") "id") "_id"
          = ("id", dumpId v) :: removeKey (removeKey doc "_id") "id" := by
        rw [removeKey, List.filter_cons]
        have hne : (!(("id", dumpId v).1 == "_id")) = true := rfl
        rw [if_pos hne]
        congr 1
        exact removeKey_eq_self_of (fun kv hm => (mem_removeKey (mem_removeKey hm).1).2)
      rw [h1, removeKey, List.filter_cons]
      have hne : (!(("id", dumpId v).1 == "id")) = false := rfl
      rw [hne]
      simp only [Bool.false_eq_true, if_false]
      exact removeKey_eq_self_of (fun kv hm => (mem_removeKey hm).2)
    simp only [normalizeId, hlid, hlid2, hval, hrest, hdump]

/-- C8 counterexample: on a document carrying both an explicit generated
id (a UUID string under the key id) and a backend-native identifier (an
ObjectId under the key _id), normalization emits the backend-native
value: the alias _id has priority over the field name under pydantic
populate_by_name, so the explicit generated id is discarded.  The claim
that normalization prefers the explicit slug/generated id over the
backend-native identifier is therefore false. -/
theorem identity_normalization_counterexample :
    normalizeId "aaaaaaaaaaaaaaaaaaaaaaaa"
        [("id", Value.vstr "11111111-2222-3333-4444-555555555555"),
         ("_id", Value.vobjid "0123456789abcdef01234567")]
      = some [("id", Value.vstr "0123456789abcdef01234567")] := by
  decide

/-- C8 amended: for every input document whose ObjectId values are
well-formed 24-hex strings (an invariant of the bson ObjectId type),
successful normalization emits exactly one id field, never emits the
backend-native _id, prefers the backend-native _id value over an explicit
id value when both are present (the reverse of the claimed preference),
and is idempotent: normalizing the normalized document changes
nothing. -/
theorem identity_normalization_contract (freshId : String) (doc d2 : Doc)
    (hfresh : isValidObjectId freshId = true)
    (hid1 : ∀ s, lookupD doc "_id" = some (.vobjid s) → isValidObjectId s = true)
    (hid2 : ∀ s, lookupD doc "id" = some (.vobjid s) → isValidObjectId s = true)
    (hnorm : normalizeId freshId doc = some d2) :
    ((d2.filter (fun kv => kv.1 == "id")).length = 1
     ∧ (d2.filter (fun kv => kv.1 == "_id")).length = 0
     ∧ (∀ w, lookupD doc "_id" = some w →
         ∃ v, pyObjectIdValidate w = some v ∧ lookupD d2 "id" = some (dumpId v))
     ∧ ∀ fresh2, normalizeId fresh2 d2 = some d2) := by
  simp only [normalizeId] at hnorm
  cases h_id : lookupD doc "_id" with
  | some w =>
    simp only [h_id] at hnorm
    cases hv : pyObjectIdValidate w with
    | none =>
      simp only [hv] at hnorm
      exact absurd hnorm (by simp)
    | some v =>
      simp only [hv, Option.some.injEq] at hnorm
      subst hnorm
      have hvok := pyObjectIdValidate_range hv (fun s he => hid1 s (he ▸ h_id))
      obtain ⟨p1, p2, p3⟩ := normalized_shape_contract v doc hvok
      refine ⟨p1, p2, ?_, p3⟩
      intro w2 hw2
      injection hw2 with hw2
      subst hw2
      exact ⟨v, hv, by rw [lookupD_cons]; rfl⟩
  | none =>
    simp only [h_id] at hnorm
    cases h_id2 : lookupD doc "id" with
    | some w =>
      simp only [h_id2] at hnorm
      cases hv : pyObjectIdValidate w with
      | none =>
        simp only [hv] at hnorm
        exact absurd hnorm (by simp)
      | some v =>
        simp only [hv, Option.some.injEq] at hnorm
        subst hnorm
        have hvok := pyObjectIdValidate_range hv (fun s he => hid2 s (he ▸ h_id2))
        obtain ⟨p1, p2, p3⟩ := normalized_shape_contract v doc hvok
        refine ⟨p1, p2, ?_, p3⟩
        intro w2 hw2
        exact absurd hw2 (by simp)
    | none =>
      simp only [h_id2, Option.some.injEq] at hnorm
      subst hnorm
      have hvok : (∃ s, Value.vobjid freshId = Value.vstr s ∧ isUuidFormat s = true) ∨
          (∃ s, Value.vobjid freshId = Value.vobjid s ∧ isValidObjectId s = true) :=
        Or.inr ⟨freshId, rfl, hfresh⟩
      obtain ⟨p1, p2, p3⟩ := normalized_shape_contract (Value.vobjid freshId) doc hvok
      refine ⟨p1, p2, ?_, p3⟩
      intro w2 hw2
      exact absurd hw2 (by simp)

theorem identity_normalization_contract_witness :
    (([("id", Value.vstr "abcdefabcdefabcdefabcdef"), ("name", Value.vstr "France")].filter
        (fun kv => kv.1 == "id")).length = 1
     ∧ ([("id", Value.vstr "abcdefabcdefabcdefabcdef"), ("name", Value.vstr "France")].filter
        (fun kv => kv.1 == "_id")).length = 0
     ∧ normalizeId "ffffffffffffffffffffffff"
        [("id", Value.vstr "abcdefabcdefabcdefabcdef"), ("name", Value.vstr "France")]
        = some [("id", Value.vstr "abcdefabcdefabcdefabcdef"), ("name", Value.vstr "France")]) := by
  have h := identity_normalization_contract "eeeeeeeeeeeeeeeeeeeeeeee"
    [("_id", Value.vstr "abcdefabcdefabcdefabcdef"), ("name", Value.vstr "France")]
    [("id", Value.vstr "abcdefabcdefabcdefabcdef"), ("name", Value.vstr "France")]
    (by decide) (by intro s h; simp [lookupD_cons, lookupD_nil] at h)
    (by intro s h; simp [lookupD_cons, lookupD_nil] at h) (by decide)
  exact ⟨h.1, h.2.1, h.2.2.2 "ffffffffffffffffffffffff"⟩

end BeyondBorder
